import Mathlib

/-!
# Verification of the URL probing subsystem (`ping_urls.py`) and the
# analytics fetch (`gsearch.py`)

Shallow embedding of the two source files of the repository.

The network is nondeterministic, so the outcome of each call to
`urllib.request.urlopen` is an explicit input (an oracle value) of the
embedded functions: `urlopen` either returns a response carrying a status
code, raises `urllib.error.HTTPError` carrying a status code and a message
(`str(e)`), or raises some other exception carrying a message.  Elapsed
wall-clock time (`time.time() - start`) is likewise an input, modelled as a
rational number.  With those inputs fixed, `check_url` is a pure total
function: returning a `ProbeResult` (rather than an `Except`) embeds the
fact that the Python function catches every exception of the request and
never raises.
-/

/-- Outcome of one `urllib.request.urlopen(req, timeout=5)` call, as
distinguished by the `try/except` ladder of `check_url`:
a normal response with `response.getcode()`, an `urllib.error.HTTPError`
(which carries `e.code` and a description `str(e)`), or any other
exception (DNS failure, connection refused, timeout expiry, TLS failure,
a malformed URL rejected by `HeadRequest(url)`, ...) carrying its
description `str(e)`. -/
inductive UrlOpenOutcome where
  | success (code : Int)
  | httpError (code : Int) (msg : String)
  | otherError (msg : String)
deriving DecidableEq, Repr

/-- The description attached to a failing outcome (`str(e)` in the source);
`none` for a normal response. -/
def failureMsg : UrlOpenOutcome → Option String
  | .success _ => none
  | .httpError _ msg => some msg
  | .otherError msg => some msg

/-- The dictionary returned by `check_url`: keys `url`, `is_404`,
`status_code`, `response_time`, `error`.  `status_code` and
`response_time` start out as Python `None`, hence `Option`. -/
structure ProbeResult where
  url : String
  is_404 : Bool
  status_code : Option Int
  response_time : Option ℚ
  error : String
deriving DecidableEq, Repr

/-- Round-half-to-even of a rational to an integer: the semantics of
Python's builtin `round` at integer precision. -/
def roundHalfEven (x : ℚ) : ℤ :=
  if x - x.floor < 1/2 then x.floor
  else if 1/2 < x - x.floor then x.floor + 1
  else if x.floor % 2 = 0 then x.floor else x.floor + 1

/-- Python's `round(x, 3)`: round to 3 decimal places, ties to even. -/
def round3 (x : ℚ) : ℚ := (roundHalfEven (x * 1000) : ℚ) / 1000

/-- `check_url` of `ping_urls.py`, with the `urlopen` outcome and the
elapsed wall-clock time `time.time() - start` as explicit inputs.
Mirrors the source: `details` is initialised, then the `try/except`
ladder fills `status_code` / `is_404` / `error`, then `response_time`
is set unconditionally and `details` is returned. -/
def check_url (url : String) (outcome : UrlOpenOutcome) (elapsed : ℚ) : ProbeResult :=
  let details : ProbeResult :=
    { url := url, is_404 := false, status_code := none,
      response_time := none, error := "" }
  let details :=
    match outcome with
    | .success code =>
        { details with status_code := some code, is_404 := code == 404 }
    | .httpError code msg =>
        { details with status_code := some code, is_404 := code == 404, error := msg }
    | .otherError msg =>
        { details with error := msg }
  { details with response_time := some (round3 elapsed) }

/-- One submitted probe task: the URL together with the oracle values its
`check_url` call will see (its own `urlopen` outcome and elapsed time).
Distinct submissions of the same URL are distinct jobs. -/
structure Job where
  url : String
  outcome : UrlOpenOutcome
  elapsed : ℚ
deriving DecidableEq, Repr

/-- Running one submitted job: the `executor.submit(check_url, url)` call. -/
def runJob (j : Job) : ProbeResult := check_url j.url j.outcome j.elapsed

/-- The probe-all loop of `main`: one future is submitted per URL
(`future_to_url` is keyed by the futures, which are distinct objects, so
duplicate URLs all stay), and `concurrent.futures.as_completed` yields
the futures in an arbitrary completion order, modelled by the index list
`completed`; each `future.result()` is appended to `results`.
`check_url` is total, so `future.result()` never raises and the `except`
arm of the collection loop is dead code. -/
def probeAll (jobs : List Job) (completed : List (Fin jobs.length)) : List ProbeResult :=
  completed.map (fun i => runJob (jobs.get i))

/-- Python's `str.strip()` on the character list of a string: drop leading
whitespace, then drop trailing whitespace (restricted to the ASCII
whitespace characters covered by `Char.isWhitespace`). -/
def stripChars (l : List Char) : List Char :=
  ((l.dropWhile Char.isWhitespace).reverse.dropWhile Char.isWhitespace).reverse

/-- Python's `str.strip()`, lifted to `String`. -/
def strip (s : String) : String := ⟨stripChars s.data⟩

/-- The input-reading loop of `main`: the rows produced by
`csv.reader`, in order.  `if row:` skips only empty rows (blank lines of
the file); a non-empty row contributes `row[0].strip()`, whatever that
is — including the empty string when the first field is blank or
whitespace-only. -/
def readUrls : List (List String) → List String
  | [] => []
  | row :: rest =>
      if row.isEmpty then readUrls rest
      else strip (row.headD "") :: readUrls rest

/-- The request assembled by `get_search_analytics_data` of `gsearch.py`
before its `try` block: the endpoint f-string, the two headers, and the
payload fields passed to `json.dumps`. -/
structure GsRequest where
  endpoint : String
  authorization : String
  contentType : String
  startDate : String
  endDate : String
  dimensions : List String
  rowLimit : Nat
deriving Repr

/-- A decoded JSON document, the result type of `json.loads`. -/
inductive Json where
  | null
  | bool (b : Bool)
  | num (q : ℚ)
  | str (s : String)
  | arr (elems : List Json)
  | obj (fields : List (String × Json))

/-- The concrete `GsRequest` built by `get_search_analytics_data` from its
four string arguments. -/
def searchAnalyticsRequest (access_token site_url start_date end_date : String) : GsRequest :=
  { endpoint := "https://www.googleapis.com/webmasters/v3/sites/" ++ site_url
      ++ "/searchAnalytics/query"
    authorization := "Bearer " ++ access_token
    contentType := "application/json"
    startDate := start_date
    endDate := end_date
    dimensions := ["page"]
    rowLimit := 5000 }

/-- `get_search_analytics_data` of `gsearch.py`.  The two external
libraries are oracles: `net` is `urlopen` + `response.read()` + UTF-8
decoding (any exception of those steps is an `.error`), and `loads` is
`json.loads` (a `json.JSONDecodeError` is an `.error`).  Both failure
kinds are raised inside the single `try` block of the source, whose
`except Exception` arm returns `None`; on success the decoded document is
returned. -/
def get_search_analytics_data
    (net : GsRequest → Except String String)
    (loads : String → Except String Json)
    (access_token site_url start_date end_date : String) : Option Json :=
  let req := searchAnalyticsRequest access_token site_url start_date end_date
  match net req with
  | .error _ => none
  | .ok body =>
      match loads body with
      | .error _ => none
      | .ok parsed => some parsed

/-! ## Helper lemmas -/

theorem rat_floor_eq_intFloor (x : ℚ) : x.floor = ⌊x⌋ :=
  (Rat.floor_def' x).trans Rat.floor_def.symm

theorem roundHalfEven_nonneg {x : ℚ} (hx : 0 ≤ x) : 0 ≤ roundHalfEven x := by
  have hf : (0 : ℤ) ≤ x.floor := by
    rw [rat_floor_eq_intFloor]
    exact Int.floor_nonneg.mpr hx
  unfold roundHalfEven
  split_ifs <;> omega

theorem round3_nonneg {x : ℚ} (hx : 0 ≤ x) : 0 ≤ round3 x := by
  unfold round3
  have h : (0 : ℚ) ≤ (roundHalfEven (x * 1000) : ℚ) := by
    exact_mod_cast roundHalfEven_nonneg (by positivity)
  positivity

theorem check_url_url (url : String) (outcome : UrlOpenOutcome) (elapsed : ℚ) :
    (check_url url outcome elapsed).url = url := by
  cases outcome <;> rfl

theorem runJob_url (j : Job) : (runJob j).url = j.url := check_url_url ..

theorem probeAll_perm (jobs : List Job) (completed : List (Fin jobs.length))
    (h : completed.Perm (List.finRange jobs.length)) :
    (probeAll jobs completed).Perm (jobs.map runJob) := by
  have h1 : (probeAll jobs completed).Perm
      ((List.finRange jobs.length).map (fun i => runJob (jobs.get i))) :=
    h.map _
  have h2 : (List.finRange jobs.length).map (fun i => runJob (jobs.get i))
      = jobs.map runJob := by
    have : (fun i => runJob (jobs.get i)) = runJob ∘ jobs.get := rfl
    rw [this, ← List.map_map, List.finRange_map_get]
  rwa [h2] at h1

theorem dropWhile_dropWhile_same (p : Char → Bool) (l : List Char) :
    (l.dropWhile p).dropWhile p = l.dropWhile p := by
  induction l with
  | nil => rfl
  | cons a t ih =>
      by_cases hp : p a
      · simp [List.dropWhile_cons, hp, ih]
      · simp [List.dropWhile_cons, hp]

theorem dropWhile_eq_self_of_front (p : Char → Bool) {l r : List Char}
    (hl : l.dropWhile p = l) (hpre : r <+: l) : r.dropWhile p = r := by
  cases r with
  | nil => rfl
  | cons a t =>
      obtain ⟨s, hs⟩ := hpre
      by_cases hp : p a
      · exfalso
        have hlen : (l.dropWhile p).length = l.length := by rw [hl]
        rw [← hs] at hlen
        simp only [List.cons_append, List.dropWhile_cons, hp, if_pos,
          List.length_append, List.length_cons] at hlen
        have hle := (List.dropWhile_suffix (l := t ++ s) p).sublist.length_le
        rw [List.length_append] at hle
        omega
      · simp [List.dropWhile_cons, hp]

theorem stripChars_idem (l : List Char) : stripChars (stripChars l) = stripChars l := by
  set p := Char.isWhitespace with hp
  set A := l.dropWhile p with hA
  have hAfix : A.dropWhile p = A := dropWhile_dropWhile_same p l
  have hsuf : A.reverse.dropWhile p <:+ A.reverse := List.dropWhile_suffix p
  have hpre : (A.reverse.dropWhile p).reverse <+: A := by
    obtain ⟨t, ht⟩ := hsuf
    refine ⟨t.reverse, ?_⟩
    rw [← List.reverse_append, ht, List.reverse_reverse]
  have hchar : stripChars l = (A.reverse.dropWhile p).reverse := by
    rw [stripChars, ← hA, ← hp]
  set r := (A.reverse.dropWhile p).reverse with hr
  have hrfix : r.dropWhile p = r := dropWhile_eq_self_of_front p hAfix hpre
  have hrev : r.reverse.dropWhile p = r.reverse := by
    rw [hr, List.reverse_reverse]
    exact dropWhile_dropWhile_same p A.reverse
  rw [hchar, stripChars, hrfix, hrev, List.reverse_reverse]

theorem strip_idem (s : String) : strip (strip s) = strip s :=
  congrArg String.mk (stripChars_idem s.data)

theorem readUrls_eq_filter_map (rows : List (List String)) :
    readUrls rows
      = (rows.filter (fun r => !r.isEmpty)).map (fun r => strip (r.headD "")) := by
  induction rows with
  | nil => rfl
  | cons row rest ih =>
      cases h : row.isEmpty <;> simp [readUrls, h, ih, List.filter_cons]

/-! ## Basic sanity checks on the embedding -/

example : (check_url "http://a" (.success 404) 1).is_404 = true := rfl

example : (check_url "http://a" (.otherError "boom") 1).status_code = none := rfl

example : round3 (1/2) = 1/2 := by
  simp only [round3, roundHalfEven, rat_floor_eq_intFloor]
  norm_num

example : round3 (12345/10000) = 1234/1000 := by
  simp only [round3, roundHalfEven, rat_floor_eq_intFloor]
  norm_num

/-! ## Claims -/

/-- C1: `check_url` is a total function into `ProbeResult` — every failure
mode of the underlying request (an `HTTPError` or any other exception) is
caught by its `try/except` ladder, and whenever the outcome carries a
failure description, the returned result's `error` field holds exactly
that description; in particular a non-empty description yields a populated
`errorMessage`. -/
theorem check_url_captures_failures (url : String) (outcome : UrlOpenOutcome)
    (elapsed : ℚ) (msg : String) (h : failureMsg outcome = some msg)
    (hmsg : msg ≠ "") :
    (check_url url outcome elapsed).error = msg ∧
      (check_url url outcome elapsed).error ≠ "" := by
  cases outcome with
  | success code => simp [failureMsg] at h
  | httpError code m =>
      simp only [failureMsg, Option.some.injEq] at h
      subst h
      exact ⟨rfl, by simpa [check_url] using hmsg⟩
  | otherError m =>
      simp only [failureMsg, Option.some.injEq] at h
      subst h
      exact ⟨rfl, by simpa [check_url] using hmsg⟩

/-- Witness for C1 at a concrete transport failure. -/
theorem check_url_captures_failures_witness :
    failureMsg (.otherError "timed out") = some "timed out" ∧
      ("timed out" : String) ≠ "" ∧
      ((check_url "http://example.com" (.otherError "timed out") 1).error = "timed out" ∧
        (check_url "http://example.com" (.otherError "timed out") 1).error ≠ "") :=
  ⟨rfl, by decide,
    check_url_captures_failures "http://example.com" (.otherError "timed out") 1
      "timed out" rfl (by decide)⟩

/-- C2: for every job list of length N and every completion order of the
futures (any permutation of the submitted indices), the probe-all loop of
`main` collects exactly N ProbeResults — one per submitted URL, none
dropped, none duplicated (the results are a permutation of the per-job
results). -/
theorem probeAll_one_result_per_url (jobs : List Job)
    (completed : List (Fin jobs.length))
    (h : completed.Perm (List.finRange jobs.length)) :
    (probeAll jobs completed).length = jobs.length ∧
      (probeAll jobs completed).Perm (jobs.map runJob) := by
  have hp := probeAll_perm jobs completed h
  exact ⟨by simpa using hp.length_eq, hp⟩

/-- Witness for C2: two jobs finishing in reversed order. -/
theorem probeAll_one_result_per_url_witness :
    (([1, 0] : List (Fin 2)).Perm (List.finRange 2)) ∧
      ((probeAll [⟨"http://a", .success 200, 1⟩, ⟨"http://b", .otherError "refused", 2⟩]
          ([1, 0] : List (Fin 2))).length = 2 ∧
        (probeAll [⟨"http://a", .success 200, 1⟩, ⟨"http://b", .otherError "refused", 2⟩]
            ([1, 0] : List (Fin 2))).Perm
          (([⟨"http://a", .success 200, 1⟩, ⟨"http://b", .otherError "refused", 2⟩] :
              List Job).map runJob)) :=
  ⟨by decide,
    probeAll_one_result_per_url
      [⟨"http://a", .success 200, 1⟩, ⟨"http://b", .otherError "refused", 2⟩]
      ([1, 0] : List (Fin 2)) (by decide)⟩

/-- C3: for every result of `check_url`, `is_404 = true` iff
`status_code = some 404`; in particular it is never true on a transport
failure, where `status_code` is `none`. -/
theorem check_url_is_404_iff (url : String) (outcome : UrlOpenOutcome) (elapsed : ℚ) :
    (check_url url outcome elapsed).is_404 = true ↔
      (check_url url outcome elapsed).status_code = some 404 := by
  cases outcome <;> simp [check_url]

/-- C4: on an exception with no usable status code (`except Exception`
arm), `check_url` returns `status_code = none`, `is_404 = false`, and
`error` set to the failure's description; moreover a failing job is
isolated: replacing job `i` in the submitted list changes no result at
any other position `k`. -/
theorem check_url_transport_failure_isolated (url msg : String) (elapsed : ℚ)
    (jobs : List Job) (i k : ℕ) (j' : Job) (hk : k ≠ i) :
    (check_url url (.otherError msg) elapsed).status_code = none ∧
      (check_url url (.otherError msg) elapsed).is_404 = false ∧
      (check_url url (.otherError msg) elapsed).error = msg ∧
      ((jobs.set i j').map runJob)[k]? = (jobs.map runJob)[k]? := by
  refine ⟨rfl, rfl, rfl, ?_⟩
  rw [List.map_set]
  exact List.getElem?_set_ne (Ne.symm hk)

/-- Witness for C4 at a concrete timeout in a two-job batch. -/
theorem check_url_transport_failure_isolated_witness :
    (1 : ℕ) ≠ (0 : ℕ) ∧
      ((check_url "http://a" (.otherError "timed out") 6).status_code = none ∧
        (check_url "http://a" (.otherError "timed out") 6).is_404 = false ∧
        (check_url "http://a" (.otherError "timed out") 6).error = "timed out" ∧
        ((([⟨"http://a", .success 200, 1⟩, ⟨"http://b", .success 200, 1⟩] :
              List Job).set 0 ⟨"http://a", .otherError "timed out", 6⟩).map
            runJob)[1]?
          = (([⟨"http://a", .success 200, 1⟩, ⟨"http://b", .success 200, 1⟩] :
              List Job).map runJob)[1]?) :=
  ⟨by decide,
    check_url_transport_failure_isolated "http://a" "timed out" 6
      [⟨"http://a", .success 200, 1⟩, ⟨"http://b", .success 200, 1⟩] 0 1
      ⟨"http://a", .otherError "timed out", 6⟩ (by decide)⟩

/-- C5: an `urllib.error.HTTPError` is classified exactly like a normal
response with the same status code — same `status_code`, same `is_404`,
same `response_time` — except that `error` holds the error's
description. -/
theorem check_url_httpError_like_success (url : String) (code : Int)
    (msg : String) (elapsed : ℚ) :
    check_url url (.httpError code msg) elapsed
      = { check_url url (.success code) elapsed with error := msg } := rfl

/-- C6 counterexample: a row whose only field is whitespace is not an
empty row, so `if row:` keeps it and `row[0].strip()` submits the empty
string — contradicting the claim that no empty URL is ever submitted. -/
theorem readUrls_submits_blank :
    readUrls [["   "]] = [""] ∧ "" ∈ readUrls [["   "]] := by
  constructor
  · rfl
  · rw [show readUrls [["   "]] = [""] from rfl]
    exact List.mem_singleton.mpr rfl

/-- C6 amended: every URL read from the input is the
whitespace-trimmed first field of its row and empty rows (blank lines)
are discarded, so every submitted URL is trimmed (stripping is
idempotent on the output); but rows whose first field is blank after
trimming are kept and submitted as empty strings. -/
theorem readUrls_trimmed_and_rows_kept (rows : List (List String)) :
    readUrls rows
        = (rows.filter (fun r => !r.isEmpty)).map (fun r => strip (r.headD "")) ∧
      (readUrls rows).map strip = readUrls rows := by
  refine ⟨readUrls_eq_filter_map rows, ?_⟩
  rw [readUrls_eq_filter_map rows, List.map_map]
  exact List.map_congr_left (fun r _ => strip_idem (r.headD ""))

/-- C7: in every branch of `check_url` — success, HTTP error, or any other
exception — `response_time` is populated with `round(time.time() - start, 3)`;
given that the clock does not run backwards (`0 ≤ elapsed`), that value is
non-negative and is an integer multiple of 1/1000 (exactly 3 decimal
places). -/
theorem check_url_response_time (url : String) (outcome : UrlOpenOutcome)
    (elapsed : ℚ) (h : 0 ≤ elapsed) :
    (check_url url outcome elapsed).response_time = some (round3 elapsed) ∧
      0 ≤ round3 elapsed ∧
      ∃ n : ℤ, round3 elapsed = (n : ℚ) / 1000 := by
  refine ⟨?_, round3_nonneg h, ⟨roundHalfEven (elapsed * 1000), rfl⟩⟩
  cases outcome <;> rfl

/-- Witness for C7 at a concrete successful probe taking half a second. -/
theorem check_url_response_time_witness :
    (0 : ℚ) ≤ 1/2 ∧
      ((check_url "http://a" (.success 200) (1/2)).response_time = some (round3 (1/2)) ∧
        0 ≤ round3 (1/2) ∧
        ∃ n : ℤ, round3 (1/2) = (n : ℚ) / 1000) :=
  ⟨by norm_num, check_url_response_time "http://a" (.success 200) (1/2) (by norm_num)⟩

/-- C8: no deduplication by URL — for every URL `u`, the number of
results for `u` collected by the probe-all loop equals the number of
submitted jobs for `u`, so a URL submitted twice yields two independent
ProbeResults. -/
theorem probeAll_no_dedup (jobs : List Job) (completed : List (Fin jobs.length))
    (h : completed.Perm (List.finRange jobs.length)) (u : String) :
    ((probeAll jobs completed).map ProbeResult.url).count u
      = (jobs.map Job.url).count u := by
  have hp := (probeAll_perm jobs completed h).map ProbeResult.url
  have hmap : (jobs.map runJob).map ProbeResult.url = jobs.map Job.url := by
    rw [List.map_map]
    exact List.map_congr_left (fun j _ => runJob_url j)
  rw [hmap] at hp
  exact hp.count_eq u

/-- Witness for C8: the same URL submitted twice produces two results. -/
theorem probeAll_no_dedup_witness :
    (([0, 1] : List (Fin 2)).Perm (List.finRange 2)) ∧
      ((probeAll [⟨"http://a", .success 200, 1⟩, ⟨"http://a", .success 404, 2⟩]
            ([0, 1] : List (Fin 2))).map ProbeResult.url).count "http://a"
        = (([⟨"http://a", .success 200, 1⟩, ⟨"http://a", .success 404, 2⟩] :
            List Job).map Job.url).count "http://a" :=
  ⟨by decide,
    probeAll_no_dedup [⟨"http://a", .success 200, 1⟩, ⟨"http://a", .success 404, 2⟩]
      ([0, 1] : List (Fin 2)) (by decide) "http://a"⟩

/-- C10: `get_search_analytics_data` never propagates an exception — the
whole network/decoding pipeline sits inside one `try` whose
`except Exception` arm returns `None` — so it returns exactly the decoded
JSON document when both the request and `json.loads` succeed, and `none`
on any failure of either step. -/
theorem get_search_analytics_data_total (net : GsRequest → Except String String)
    (loads : String → Except String Json)
    (access_token site_url start_date end_date : String) :
    get_search_analytics_data net loads access_token site_url start_date end_date
      = ((net (searchAnalyticsRequest access_token site_url start_date end_date)).toOption.bind
          fun body => (loads body).toOption) := by
  unfold get_search_analytics_data
  rcases hnet : net (searchAnalyticsRequest access_token site_url start_date end_date)
    with msg | body
  · simp [hnet, Except.toOption]
  · rcases hload : loads body with msg | parsed <;>
      simp [hnet, hload, Except.toOption]
